import Mathlib

/-!
Verification of the `fix_logging.py` text rewriter (repository wow-myui).

The script reads a file, applies six fixed regular-expression substitutions
(`re.sub`) in order, and writes the result back.  We embed each of the six
patterns as a deterministic matcher (the patterns are backtracking-free in
the relevant sense: every `[^)]+`, `\s*` and alternation admits exactly one
viable parse at a given start position), and embed `re.sub` as a left-to-right
scan producing non-overlapping leftmost matches, exactly as Python does on
the input buffer.  The MULTILINE `^` anchor of rules 5 and 6 is modelled by a
line-start flag threaded through the scan (true at offset 0 and right after a
newline character of the input).
-/

set_option maxRecDepth 20000

namespace FixLogging

/-- Characters matched by the Python regex class `\s` (Unicode default for
`str` patterns). -/
def isSpace (c : Char) : Bool :=
  c == ' ' || c == '\t' || c == '\n' || c == '\r' || c == '\x0b' || c == '\x0c' ||
  (decide (0x1c ≤ c.toNat) && decide (c.toNat ≤ 0x1f)) ||
  c.toNat == 0x85 || c.toNat == 0xa0 || c.toNat == 0x1680 ||
  (decide (0x2000 ≤ c.toNat) && decide (c.toNat ≤ 0x200a)) ||
  c.toNat == 0x2028 || c.toNat == 0x2029 || c.toNat == 0x202f ||
  c.toNat == 0x205f || c.toNat == 0x3000

/-- Match a literal character sequence at the head of `s`; return the rest. -/
def lit : List Char → List Char → Option (List Char)
  | [], s => some s
  | _ :: _, [] => none
  | p :: ps, c :: cs => if p = c then lit ps cs else none

/-- Greedy maximal run of characters satisfying `p` (the `X*` of the regexes,
which never backtracks here because the character after the run can never
also start the literal that follows). -/
def takeRun (p : Char → Bool) : List Char → List Char × List Char
  | [] => ([], [])
  | c :: cs =>
    if p c then
      let r := takeRun p cs
      (c :: r.1, r.2)
    else ([], c :: cs)

/-- The character class `[^)]`. -/
def notParen (c : Char) : Bool := !(c == ')')

/-- Ordered alternation `(a|b|...)`: Python tries the branches left to right. -/
def firstAlt : List (List Char) → List Char → Option (List Char)
  | [], _ => none
  | a :: as, s =>
    match lit a s with
    | some r => some r
    | none => firstAlt as s

/-- Leading literal of pattern 1: `if addon\.DEBUG then print\(string\.format\(`. -/
def guardFmt : List Char := "if addon.DEBUG then print(string.format(".toList

/-- Leading literal of pattern 2: `if addon\.DEBUG then print\(`. -/
def guardPlain : List Char := "if addon.DEBUG then print(".toList

/-- Leading literal of patterns 3 and 4: `if addon\.DEBUG then`. -/
def guardHead : List Char := "if addon.DEBUG then".toList

/-- Literal `print\(string\.format\(` of pattern 3. -/
def fmtHead : List Char := "print(string.format(".toList

/-- Literal `print\(` of pattern 4. -/
def plainHead : List Char := "print(".toList

/-- Literal `print\(string\.format\("` of pattern 5. -/
def fmtHeadQ : List Char := "print(string.format(\"".toList

/-- Literal `print\("` of pattern 6. -/
def plainHeadQ : List Char := "print(\"".toList

/-- Replacement template `addon:Debug(\1)` of patterns 1-4. -/
def debugCall (args : List Char) : List Char := "addon:Debug(".toList ++ args ++ [')']

/-- Alternatives of pattern 5: `(Session|Quality|Loading|Migrating|Test session)`. -/
def alts5 : List (List Char) :=
  ["Session".toList, "Quality".toList, "Loading".toList, "Migrating".toList,
   "Test session".toList]

/-- Alternatives of pattern 6: `(Session deleted|Sessions cleared|No sessions)`. -/
def alts6 : List (List Char) :=
  ["Session deleted".toList, "Sessions cleared".toList, "No sessions".toList]

/-- Replacement of pattern 5 (note: no backreference to the captured group). -/
def repl5 : List Char := "    addon:Debug(\"".toList

/-- Replacement of pattern 6 (note: no backreference to the captured group). -/
def repl6 : List Char := "    addon:Info(\"".toList

/-- Pattern 1 matcher at a given position (suffix `s`); returns the number of
consumed characters and the replacement text.  The Boolean line-start flag is
ignored (no `^` anchor). -/
def matchP1 (_ : Bool) (s : List Char) : Option (Nat × List Char) :=
  match lit guardFmt s with
  | none => none
  | some r1 =>
    if (takeRun notParen r1).1.isEmpty then none else
    match lit ")) end".toList (takeRun notParen r1).2 with
    | none => none
    | some r3 => some (s.length - r3.length, debugCall (takeRun notParen r1).1)

/-- Pattern 2 matcher: `if addon\.DEBUG then print\(([^)]+)\) end`. -/
def matchP2 (_ : Bool) (s : List Char) : Option (Nat × List Char) :=
  match lit guardPlain s with
  | none => none
  | some r1 =>
    if (takeRun notParen r1).1.isEmpty then none else
    match lit ") end".toList (takeRun notParen r1).2 with
    | none => none
    | some r3 => some (s.length - r3.length, debugCall (takeRun notParen r1).1)

/-- Pattern 3 matcher:
`if addon\.DEBUG then\s*\n\s*print\(string\.format\(([^)]+)\)\)\s*\n\s*end`.
A maximal whitespace run containing at least one newline is exactly what
`\s*\n\s*` can consume in front of a non-whitespace character. -/
def matchP3 (_ : Bool) (s : List Char) : Option (Nat × List Char) :=
  match lit guardHead s with
  | none => none
  | some r1 =>
    if !((takeRun isSpace r1).1.contains '\n') then none else
    match lit fmtHead (takeRun isSpace r1).2 with
    | none => none
    | some r2 =>
      if (takeRun notParen r2).1.isEmpty then none else
      match lit "))".toList (takeRun notParen r2).2 with
      | none => none
      | some r3 =>
        if !((takeRun isSpace r3).1.contains '\n') then none else
        match lit "end".toList (takeRun isSpace r3).2 with
        | none => none
        | some r4 => some (s.length - r4.length, debugCall (takeRun notParen r2).1)

/-- Pattern 4 matcher:
`if addon\.DEBUG then\s*\n\s*print\(([^)]+)\)\s*\n\s*end`. -/
def matchP4 (_ : Bool) (s : List Char) : Option (Nat × List Char) :=
  match lit guardHead s with
  | none => none
  | some r1 =>
    if !((takeRun isSpace r1).1.contains '\n') then none else
    match lit plainHead (takeRun isSpace r1).2 with
    | none => none
    | some r2 =>
      if (takeRun notParen r2).1.isEmpty then none else
      match lit ")".toList (takeRun notParen r2).2 with
      | none => none
      | some r3 =>
        if !((takeRun isSpace r3).1.contains '\n') then none else
        match lit "end".toList (takeRun isSpace r3).2 with
        | none => none
        | some r4 => some (s.length - r4.length, debugCall (takeRun notParen r2).1)

/-- Pattern 5 matcher (MULTILINE `^` anchor):
`^\s*print\(string\.format\("(Session|Quality|Loading|Migrating|Test session)`.
The replacement `    addon:Debug("` does not re-emit the captured group. -/
def matchP5 (lineStart : Bool) (s : List Char) : Option (Nat × List Char) :=
  if !lineStart then none else
  match lit fmtHeadQ (takeRun isSpace s).2 with
  | none => none
  | some r1 =>
    match firstAlt alts5 r1 with
    | none => none
    | some r2 => some (s.length - r2.length, repl5)

/-- Pattern 6 matcher (MULTILINE `^` anchor):
`^\s*print\("(Session deleted|Sessions cleared|No sessions)`.
The replacement `    addon:Info("` does not re-emit the captured group. -/
def matchP6 (lineStart : Bool) (s : List Char) : Option (Nat × List Char) :=
  if !lineStart then none else
  match lit plainHeadQ (takeRun isSpace s).2 with
  | none => none
  | some r1 =>
    match firstAlt alts6 r1 with
    | none => none
    | some r2 => some (s.length - r2.length, repl6)

/-- Whether a consumed chunk ends with a newline (to maintain the `^` flag of
the continued scan, as Python checks the character before the next position). -/
def endsNL (l : List Char) : Bool :=
  match l.getLast? with
  | some c => c == '\n'
  | none => false

/-- The `re.sub` scan with explicit fuel (one unit per scanned position; every
match of the six patterns consumes at least one character, so fuel equal to the
length of the text suffices).  At each position the matcher is tried; on
success the replacement is emitted and the scan continues right after the
match, otherwise the character is copied and the scan advances one position. -/
def subAllF (m : Bool → List Char → Option (Nat × List Char)) :
    Nat → Bool → List Char → List Char
  | 0, _, s => s
  | _ + 1, _, [] => []
  | f + 1, ls, c :: cs =>
    match m ls (c :: cs) with
    | some (n, repl) =>
        repl ++ subAllF m f (endsNL (List.take n (c :: cs))) (List.drop (n - 1) cs)
    | none => c :: subAllF m f (c == '\n') cs

/-- One `re.sub(pattern, repl, content)` call: scan the whole buffer. -/
def subAll (m : Bool → List Char → Option (Nat × List Char)) (s : List Char) :
    List Char :=
  subAllF m s.length true s

/-- The pure transformation of `fix_logging`: the six substitutions applied in
source order (rule `k+1` sees the output of rule `k`). -/
def fix_content (s : List Char) : List Char :=
  subAll matchP6 (subAll matchP5 (subAll matchP4 (subAll matchP3
    (subAll matchP2 (subAll matchP1 s)))))

/-- Whether a matcher has a match anywhere in `s` (with line-start flags
threaded exactly as in the scan). -/
def existsMatch (m : Bool → List Char → Option (Nat × List Char)) :
    Bool → List Char → Bool
  | _, [] => false
  | ls, c :: cs => (m ls (c :: cs)).isSome || existsMatch m (c == '\n') cs

/-- Whether any of the six patterns matches somewhere in `s`. -/
def anyRuleMatches (s : List Char) : Bool :=
  existsMatch matchP1 true s || existsMatch matchP2 true s ||
  existsMatch matchP3 true s || existsMatch matchP4 true s ||
  existsMatch matchP5 true s || existsMatch matchP6 true s

/-- `pat` occurs as a contiguous substring of `s`. -/
def OccursIn (pat s : List Char) : Prop := ∃ u v, s = u ++ pat ++ v

/-- Boolean substring test (naive scan), used to decide `OccursIn` on
concrete strings. -/
def hasSub (pat : List Char) : List Char → Bool
  | [] => (lit pat []).isSome
  | c :: cs => (lit pat (c :: cs)).isSome || hasSub pat cs

/-- A standalone `print` line recognized by rule 6. -/
def lineB6 : List Char := "print(\"No sessions found\")".toList

/-- A standalone formatted `print` line recognized by rule 5. -/
def lineB5 : List Char := "print(string.format(\"Loading %s\", name))".toList

/-- A one-character first line followed by `n` blank lines and then the
line `t`: the text `x\n` + `\n`*n + `t`. -/
def blankThen (n : Nat) (t : List Char) : List Char :=
  'x' :: '\n' :: (List.replicate n '\n' ++ t)

/-- Outcome of a run of the tool: the file system (a map from path to
content), the lines printed to stdout, the traces of file reads and writes,
and whether an uncaught filesystem error terminated the run. -/
structure RunResult where
  fs : String → Option String
  output : List String
  reads : List String
  writes : List String
  errored : Bool

/-- `fix_logging(filename)`: read the file (a missing/unreadable file raises
an uncaught error: nothing is rewritten or written, no message is printed),
apply the six substitutions, write back to the same path, print the
confirmation line. -/
def fix_logging (fs : String → Option String) (filename : String) : RunResult :=
  match fs filename with
  | none => ⟨fs, [], [filename], [], true⟩
  | some content =>
    let fixed : String := ⟨fix_content content.data⟩
    ⟨fun p => if p = filename then some fixed else fs p,
     ["Fixed " ++ filename], [filename], [filename], false⟩

/-- The usage line printed when no argument is given. -/
def usageMsg : String := "Usage: python fix_logging.py <filename>"

/-- The `__main__` block: `sys.argv` is `prog :: args`; with at least one
argument the tool runs on `sys.argv[1]` only, otherwise it prints the usage
line and touches no file. -/
def mainRun (fs : String → Option String) (argv : List String) : RunResult :=
  if argv.length > 1 then fix_logging fs (argv.getD 1 "")
  else ⟨fs, [usageMsg], [], [], false⟩

/-! ### Basic lemmas about the matching primitives -/

theorem lit_append (p r : List Char) : lit p (p ++ r) = some r := by
  induction p with
  | nil => rfl
  | cons c cs ih => simp [lit, ih]

theorem lit_self (p : List Char) : lit p p = some [] := by
  simpa using lit_append p []

theorem lit_some {p s r : List Char} (h : lit p s = some r) : s = p ++ r := by
  induction p generalizing s with
  | nil => simp only [lit, Option.some.injEq] at h; simp [h]
  | cons c cs ih =>
    cases s with
    | nil => simp [lit] at h
    | cons c' s' =>
      by_cases hc : c = c'
      · subst hc
        simp only [lit, if_pos rfl] at h
        simp [ih h]
      · simp only [lit, if_neg hc] at h
        cases h

theorem takeRun_eq (p : Char → Bool) (s : List Char) :
    (takeRun p s).1 ++ (takeRun p s).2 = s := by
  induction s with
  | nil => rfl
  | cons c cs ih =>
    cases h : p c with
    | true => simp [takeRun, h, ih]
    | false => simp [takeRun, h]

theorem takeRun_append {p : Char → Bool} {a : List Char} {b : Char} {t : List Char}
    (ha : ∀ c ∈ a, p c = true) (hb : p b = false) :
    takeRun p (a ++ b :: t) = (a, b :: t) := by
  induction a with
  | nil => simp [takeRun, hb]
  | cons c cs ih =>
    have hc : p c = true := ha c (by simp)
    simp [takeRun, hc, ih (fun x hx => ha x (by simp [hx]))]

theorem subAllF_nil (m : Bool → List Char → Option (Nat × List Char)) (f : Nat)
    (ls : Bool) : subAllF m f ls [] = [] := by
  cases f <;> rfl

theorem subAllF_cons_none {m : Bool → List Char → Option (Nat × List Char)}
    {ls : Bool} {c : Char} {cs : List Char} (f : Nat) (h : m ls (c :: cs) = none) :
    subAllF m (f + 1) ls (c :: cs) = c :: subAllF m f (c == '\n') cs := by
  simp [subAllF, h]

theorem subAllF_cons_some {m : Bool → List Char → Option (Nat × List Char)}
    {ls : Bool} {c : Char} {cs : List Char} {n : Nat} {repl : List Char} (f : Nat)
    (h : m ls (c :: cs) = some (n, repl)) :
    subAllF m (f + 1) ls (c :: cs) =
      repl ++ subAllF m f (endsNL (List.take n (c :: cs))) (List.drop (n - 1) cs) := by
  simp [subAllF, h]

theorem existsMatch_cons_false {m : Bool → List Char → Option (Nat × List Char)}
    {ls : Bool} {c : Char} {cs : List Char}
    (h : existsMatch m ls (c :: cs) = false) :
    m ls (c :: cs) = none ∧ existsMatch m (c == '\n') cs = false := by
  simp only [existsMatch, Bool.or_eq_false_iff] at h
  refine ⟨?_, h.2⟩
  cases hm : m ls (c :: cs) with
  | none => rfl
  | some r => rw [hm] at h; simp at h

theorem subAllF_id {m : Bool → List Char → Option (Nat × List Char)} :
    ∀ (f : Nat) (ls : Bool) (s : List Char),
      existsMatch m ls s = false → subAllF m f ls s = s
  | 0, _, _, _ => rfl
  | _ + 1, _, [], _ => rfl
  | f + 1, ls, c :: cs, h => by
    obtain ⟨h1, h2⟩ := existsMatch_cons_false h
    rw [subAllF_cons_none f h1, subAllF_id f _ cs h2]

theorem subAll_fire_all {m : Bool → List Char → Option (Nat × List Char)}
    {s repl : List Char} (hne : s ≠ []) (h : m true s = some (s.length, repl)) :
    subAll m s = repl := by
  obtain ⟨c, cs, rfl⟩ := List.exists_cons_of_ne_nil hne
  unfold subAll
  rw [List.length_cons] at h ⊢
  rw [subAllF_cons_some cs.length h]
  simp [List.drop_length, subAllF_nil]

/-! ### Substring occurrence -/

theorem hasSub_of_occurs {pat s : List Char} (h : OccursIn pat s) :
    hasSub pat s = true := by
  obtain ⟨u, v, rfl⟩ := h
  induction u with
  | nil =>
    cases pat with
    | nil => cases v <;> simp [hasSub, lit]
    | cons p ps =>
      have hl := lit_append (p :: ps) v
      rw [List.cons_append] at hl
      simp [hasSub, hl]
  | cons c u ih =>
    simp only [List.cons_append, hasSub, Bool.or_eq_true]
    exact Or.inr ih

theorem occurs_of_hasSub {pat : List Char} :
    ∀ {s : List Char}, hasSub pat s = true → OccursIn pat s := by
  intro s
  induction s with
  | nil =>
    intro h
    simp only [hasSub] at h
    cases hp : lit pat [] with
    | none => rw [hp] at h; simp at h
    | some r =>
      have := lit_some hp
      exact ⟨[], r, by simpa using this⟩
  | cons c cs ih =>
    intro h
    simp only [hasSub, Bool.or_eq_true] at h
    rcases h with h | h
    · cases hp : lit pat (c :: cs) with
      | none => rw [hp] at h; simp at h
      | some r => exact ⟨[], r, by simpa using lit_some hp⟩
    · obtain ⟨u, v, huv⟩ := ih h
      exact ⟨c :: u, v, by simp [huv]⟩

theorem not_occurs_of_hasSub {pat s : List Char} (h : hasSub pat s = false) :
    ¬ OccursIn pat s := fun ho => by rw [hasSub_of_occurs ho] at h; cases h

theorem not_occurs_of_mem {N s : List Char} {ch : Char} (hch : ch ∈ N)
    (hs : ch ∉ s) : ¬ OccursIn N s := by
  rintro ⟨u, v, rfl⟩
  exact hs (by simp [hch])

theorem not_occurs_append {N' : List Char} {ch : Char} {A z : List Char}
    (hz : ch ∉ z) (hA : ¬ OccursIn (N' ++ [ch]) A) :
    ¬ OccursIn (N' ++ [ch]) (A ++ z) := by
  rintro ⟨u, v, huv⟩
  have h2 : (u ++ N') ++ (ch :: v) = A ++ z := by
    rw [huv]; simp [List.append_assoc]
  rcases List.append_eq_append_iff.1 h2 with ⟨a', ha1, ha2⟩ | ⟨c', hc1, hc2⟩
  · cases a' with
    | nil =>
      rw [List.nil_append] at ha2
      exact hz (by rw [← ha2]; simp)
    | cons x a'' =>
      rw [List.cons_append] at ha2
      injection ha2 with hx hv
      exact hA ⟨u, a'', by rw [ha1, ← hx]; simp [List.append_assoc]⟩
  · exact hz (by rw [hc2]; simp)

theorem existsMatch_false_of_not_occurs {m : Bool → List Char → Option (Nat × List Char)}
    {N : List Char} (hm : ∀ ls s r, m ls s = some r → OccursIn N s) :
    ∀ (s : List Char) (ls : Bool), ¬ OccursIn N s → existsMatch m ls s = false := by
  intro s
  induction s with
  | nil => intro ls _; rfl
  | cons c cs ih =>
    intro ls hno
    have h1 : m ls (c :: cs) = none := by
      cases hmm : m ls (c :: cs) with
      | none => rfl
      | some r => exact absurd (hm ls _ r hmm) hno
    have h2 : ¬ OccursIn N cs := fun ⟨u, v, huv⟩ => hno ⟨c :: u, v, by simp [huv]⟩
    simp only [existsMatch, h1, Option.isSome_none, Bool.false_or]
    exact ih _ h2

theorem subAll_id_of_not_occurs {m : Bool → List Char → Option (Nat × List Char)}
    {N s : List Char} (hm : ∀ ls s' r, m ls s' = some r → OccursIn N s')
    (hno : ¬ OccursIn N s) : subAll m s = s :=
  subAllF_id _ _ _ (existsMatch_false_of_not_occurs hm s true hno)

/-! ### Necessary occurrence conditions for each matcher -/

theorem matchP1_occ {ls : Bool} {s : List Char} {r : Nat × List Char}
    (h : matchP1 ls s = some r) : OccursIn guardFmt s := by
  unfold matchP1 at h
  split at h
  · cases h
  · next r1 h0 => exact ⟨[], r1, by simpa using lit_some h0⟩

theorem matchP2_occ {ls : Bool} {s : List Char} {r : Nat × List Char}
    (h : matchP2 ls s = some r) : OccursIn guardPlain s := by
  unfold matchP2 at h
  split at h
  · cases h
  · next r1 h0 => exact ⟨[], r1, by simpa using lit_some h0⟩

theorem matchP3_occ {ls : Bool} {s : List Char} {r : Nat × List Char}
    (h : matchP3 ls s = some r) : OccursIn guardHead s ∧ OccursIn fmtHead s := by
  unfold matchP3 at h
  split at h
  · cases h
  · next r1 h0 =>
    have hs1 : s = guardHead ++ r1 := lit_some h0
    refine ⟨⟨[], r1, by simpa using hs1⟩, ?_⟩
    split at h
    · cases h
    · split at h
      · cases h
      · next r2 h1 =>
        have hr1 : (takeRun isSpace r1).2 = fmtHead ++ r2 := lit_some h1
        refine ⟨guardHead ++ (takeRun isSpace r1).1, r2, ?_⟩
        calc s = guardHead ++ r1 := hs1
          _ = guardHead ++ ((takeRun isSpace r1).1 ++ (takeRun isSpace r1).2) := by
                rw [takeRun_eq]
          _ = guardHead ++ ((takeRun isSpace r1).1 ++ (fmtHead ++ r2)) := by rw [hr1]
          _ = (guardHead ++ (takeRun isSpace r1).1) ++ fmtHead ++ r2 := by
                simp [List.append_assoc]

theorem matchP4_occ {ls : Bool} {s : List Char} {r : Nat × List Char}
    (h : matchP4 ls s = some r) : OccursIn guardHead s ∧ OccursIn plainHead s := by
  unfold matchP4 at h
  split at h
  · cases h
  · next r1 h0 =>
    have hs1 : s = guardHead ++ r1 := lit_some h0
    refine ⟨⟨[], r1, by simpa using hs1⟩, ?_⟩
    split at h
    · cases h
    · split at h
      · cases h
      · next r2 h1 =>
        have hr1 : (takeRun isSpace r1).2 = plainHead ++ r2 := lit_some h1
        refine ⟨guardHead ++ (takeRun isSpace r1).1, r2, ?_⟩
        calc s = guardHead ++ r1 := hs1
          _ = guardHead ++ ((takeRun isSpace r1).1 ++ (takeRun isSpace r1).2) := by
                rw [takeRun_eq]
          _ = guardHead ++ ((takeRun isSpace r1).1 ++ (plainHead ++ r2)) := by rw [hr1]
          _ = (guardHead ++ (takeRun isSpace r1).1) ++ plainHead ++ r2 := by
                simp [List.append_assoc]

theorem matchP5_occ {ls : Bool} {s : List Char} {r : Nat × List Char}
    (h : matchP5 ls s = some r) : OccursIn fmtHead s := by
  unfold matchP5 at h
  split at h
  · cases h
  · split at h
    · cases h
    · next r1 h1 =>
      have hr1 : (takeRun isSpace s).2 = fmtHeadQ ++ r1 := lit_some h1
      refine ⟨(takeRun isSpace s).1, '"' :: r1, ?_⟩
      calc s = (takeRun isSpace s).1 ++ (takeRun isSpace s).2 :=
              (takeRun_eq isSpace s).symm
        _ = (takeRun isSpace s).1 ++ (fmtHeadQ ++ r1) := by rw [hr1]
        _ = (takeRun isSpace s).1 ++ fmtHead ++ '"' :: r1 := by
              rw [show fmtHeadQ = fmtHead ++ ['"'] from by decide]
              simp [List.append_assoc]

theorem matchP6_occ {ls : Bool} {s : List Char} {r : Nat × List Char}
    (h : matchP6 ls s = some r) : OccursIn plainHead s := by
  unfold matchP6 at h
  split at h
  · cases h
  · split at h
    · cases h
    · next r1 h1 =>
      have hr1 : (takeRun isSpace s).2 = plainHeadQ ++ r1 := lit_some h1
      refine ⟨(takeRun isSpace s).1, '"' :: r1, ?_⟩
      calc s = (takeRun isSpace s).1 ++ (takeRun isSpace s).2 :=
              (takeRun_eq isSpace s).symm
        _ = (takeRun isSpace s).1 ++ (plainHeadQ ++ r1) := by rw [hr1]
        _ = (takeRun isSpace s).1 ++ plainHead ++ '"' :: r1 := by
              rw [show plainHeadQ = plainHead ++ ['"'] from by decide]
              simp [List.append_assoc]

/-! ### Fire lemmas: full-match computations -/

theorem subAll_id_char {m : Bool → List Char → Option (Nat × List Char)}
    {N s : List Char} {ch : Char}
    (hm : ∀ ls s' r, m ls s' = some r → OccursIn N s')
    (hch : ch ∈ N) (hs : ch ∉ s) : subAll m s = s :=
  subAll_id_of_not_occurs hm (not_occurs_of_mem hch hs)

theorem matchP1_full {args : List Char} (hne : args ≠ []) (hp : (')' : Char) ∉ args)
    (ls : Bool) :
    matchP1 ls (guardFmt ++ args ++ ")) end".toList) =
      some ((guardFmt ++ args ++ ")) end".toList).length, debugCall args) := by
  obtain ⟨a, as, rfl⟩ := List.exists_cons_of_ne_nil hne
  have h1 : lit guardFmt (guardFmt ++ (a :: as) ++ ")) end".toList) =
      some ((a :: as) ++ ")) end".toList) := by
    rw [List.append_assoc]; exact lit_append _ _
  have ha : ∀ c ∈ a :: as, notParen c = true := by
    intro c hc
    have hcc : c ≠ ')' := fun hcc => hp (hcc ▸ hc)
    simp [notParen, hcc]
  have h2 : takeRun notParen ((a :: as) ++ ")) end".toList) = (a :: as, ")) end".toList) := by
    rw [show ")) end".toList = ')' :: ") end".toList from rfl]
    exact takeRun_append ha (by decide)
  simp at h1 h2
  simp [matchP1, h1, h2, lit_self]

theorem matchP2_full {args : List Char} (hne : args ≠ []) (hp : (')' : Char) ∉ args)
    (ls : Bool) :
    matchP2 ls (guardPlain ++ args ++ ") end".toList) =
      some ((guardPlain ++ args ++ ") end".toList).length, debugCall args) := by
  obtain ⟨a, as, rfl⟩ := List.exists_cons_of_ne_nil hne
  have h1 : lit guardPlain (guardPlain ++ (a :: as) ++ ") end".toList) =
      some ((a :: as) ++ ") end".toList) := by
    rw [List.append_assoc]; exact lit_append _ _
  have ha : ∀ c ∈ a :: as, notParen c = true := by
    intro c hc
    have hcc : c ≠ ')' := fun hcc => hp (hcc ▸ hc)
    simp [notParen, hcc]
  have h2 : takeRun notParen ((a :: as) ++ ") end".toList) = (a :: as, ") end".toList) := by
    rw [show ") end".toList = ')' :: " end".toList from rfl]
    exact takeRun_append ha (by decide)
  simp at h1 h2
  simp [matchP2, h1, h2, lit_self]

theorem matchP6_blank (k : Nat) :
    matchP6 true (List.replicate (k + 1) '\n' ++ lineB6) =
      some ((List.replicate (k + 1) '\n' ++ lineB6).length - 8, repl6) := by
  have hw : takeRun isSpace (List.replicate (k + 1) '\n' ++ lineB6) =
      (List.replicate (k + 1) '\n', lineB6) := by
    rw [show lineB6 = 'p' :: "rint(\"No sessions found\")".toList from rfl]
    exact takeRun_append
      (fun c hc => by rw [List.eq_of_mem_replicate hc]; decide) (by decide)
  have h1 : lit plainHeadQ lineB6 = some "No sessions found\")".toList := by decide
  have h2 : firstAlt alts6 "No sessions found\")".toList = some " found\")".toList := by
    decide
  simp at h1 h2
  simp [matchP6, hw, h1, h2]

theorem matchP5_blank (k : Nat) :
    matchP5 true (List.replicate (k + 1) '\n' ++ lineB5) =
      some ((List.replicate (k + 1) '\n' ++ lineB5).length - 12, repl5) := by
  have hw : takeRun isSpace (List.replicate (k + 1) '\n' ++ lineB5) =
      (List.replicate (k + 1) '\n', lineB5) := by
    rw [show lineB5 = 'p' :: "rint(string.format(\"Loading %s\", name))".toList from rfl]
    exact takeRun_append
      (fun c hc => by rw [List.eq_of_mem_replicate hc]; decide) (by decide)
  have h1 : lit fmtHeadQ lineB5 = some "Loading %s\", name))".toList := by decide
  have h2 : firstAlt alts5 "Loading %s\", name))".toList = some " %s\", name))".toList := by
    decide
  simp at h1 h2
  simp [matchP5, hw, h1, h2]

theorem drop_replicate_append (k j : Nat) (x : Char) (t : List Char) :
    List.drop (k + j) (List.replicate k x ++ t) = List.drop j t := by
  induction k with
  | zero => simp
  | succ k ih =>
    rw [List.replicate_succ, List.cons_append, show k + 1 + j = (k + j) + 1 from by omega,
      List.drop_succ_cons]
    exact ih

/-! ### Identity of the remaining rules on rewritten text -/

theorem rule_id_debugCall {m : Bool → List Char → Option (Nat × List Char)}
    {N' args : List Char}
    (hm : ∀ ls s' r, m ls s' = some r → OccursIn (N' ++ ['(']) s')
    (hA : ¬ OccursIn (N' ++ ['(']) ("addon:Debug(".toList))
    (hp : ('(' : Char) ∉ args) :
    subAll m (debugCall args) = debugCall args := by
  have hz : ('(' : Char) ∉ args ++ [')'] := by simp [hp]
  have hno : ¬ OccursIn (N' ++ ['(']) (debugCall args) := by
    have hd : debugCall args = "addon:Debug(".toList ++ (args ++ [')']) := by
      simp [debugCall, List.append_assoc]
    rw [hd]
    exact not_occurs_append hz hA
  exact subAll_id_of_not_occurs hm hno

theorem rule2_id_debugCall {args : List Char} (hp : ('(' : Char) ∉ args) :
    subAll matchP2 (debugCall args) = debugCall args :=
  rule_id_debugCall
    (fun _ _ _ h => by
      have h2 := matchP2_occ h
      rwa [show guardPlain = "if addon.DEBUG then print".toList ++ ['('] from by decide]
        at h2)
    (not_occurs_of_hasSub (by decide)) hp

theorem rule3_id_debugCall {args : List Char} (hp : ('(' : Char) ∉ args) :
    subAll matchP3 (debugCall args) = debugCall args :=
  rule_id_debugCall
    (fun _ _ _ h => by
      have h2 := (matchP3_occ h).2
      rwa [show fmtHead = "print(string.format".toList ++ ['('] from by decide] at h2)
    (not_occurs_of_hasSub (by decide)) hp

theorem rule4_id_debugCall {args : List Char} (hp : ('(' : Char) ∉ args) :
    subAll matchP4 (debugCall args) = debugCall args :=
  rule_id_debugCall
    (fun _ _ _ h => by
      have h2 := (matchP4_occ h).2
      rwa [show plainHead = "print".toList ++ ['('] from by decide] at h2)
    (not_occurs_of_hasSub (by decide)) hp

theorem rule5_id_debugCall {args : List Char} (hp : ('(' : Char) ∉ args) :
    subAll matchP5 (debugCall args) = debugCall args :=
  rule_id_debugCall
    (fun _ _ _ h => by
      have h2 := matchP5_occ h
      rwa [show fmtHead = "print(string.format".toList ++ ['('] from by decide] at h2)
    (not_occurs_of_hasSub (by decide)) hp

theorem rule6_id_debugCall {args : List Char} (hp : ('(' : Char) ∉ args) :
    subAll matchP6 (debugCall args) = debugCall args :=
  rule_id_debugCall
    (fun _ _ _ h => by
      have h2 := matchP6_occ h
      rwa [show plainHead = "print".toList ++ ['('] from by decide] at h2)
    (not_occurs_of_hasSub (by decide)) hp

theorem rule1_id_guardPlain {args : List Char} (hp : ('(' : Char) ∉ args) :
    subAll matchP1 (guardPlain ++ args ++ ") end".toList) =
      guardPlain ++ args ++ ") end".toList := by
  have h9 : ('(' : Char) ∉ ") end".toList := by decide
  have hz : ('(' : Char) ∉ args ++ ") end".toList := by simp [hp, h9]
  have hno : ¬ OccursIn guardFmt (guardPlain ++ args ++ ") end".toList) := by
    rw [List.append_assoc,
      show guardFmt = "if addon.DEBUG then print(string.format".toList ++ ['('] from by decide]
    exact not_occurs_append hz (not_occurs_of_hasSub (by decide))
  exact subAll_id_of_not_occurs (fun _ _ _ h => matchP1_occ h) hno

/-! ### Blank-line absorption scans of rules 5 and 6 -/

theorem not_mem_blankThen {c : Char} {t : List Char} (n : Nat) (h1 : c ≠ 'x')
    (h2 : c ≠ '\n') (h3 : c ∉ t) : c ∉ blankThen n t := by
  simp [blankThen, List.mem_replicate, h1, h2, h3]

theorem subAll_P6_blank (k : Nat) :
    subAll matchP6 (blankThen (k + 1) lineB6) =
      'x' :: '\n' :: (repl6 ++ " found\")".toList) := by
  have hrem : ∀ (f : Nat) (b : Bool), subAllF matchP6 f b (" found\")".toList) =
      " found\")".toList := fun f b => subAllF_id f b _ (by cases b <;> decide)
  have h6 := matchP6_blank k
  rw [List.replicate_succ, List.cons_append] at h6
  unfold subAll blankThen
  rw [show ('x' :: '\n' :: (List.replicate (k + 1) '\n' ++ lineB6)).length
      = ((List.replicate (k + 1) '\n' ++ lineB6).length + 1) + 1 from by simp]
  rw [subAllF_cons_none _ (by rfl)]
  rw [subAllF_cons_none _ (by rfl)]
  rw [List.replicate_succ, List.cons_append]
  rw [show ('\n' :: (List.replicate k '\n' ++ lineB6)).length
      = (List.replicate k '\n' ++ lineB6).length + 1 from by simp]
  rw [show (('\n' : Char) == '\n') = true from rfl]
  rw [subAllF_cons_some _ h6]
  have hlen : (List.replicate k '\n' ++ lineB6).length = k + 26 := by
    simp [lineB6]
  rw [show ('\n' :: (List.replicate k '\n' ++ lineB6)).length - 8 - 1 = k + 18 from by
    rw [List.length_cons, hlen]; omega]
  rw [drop_replicate_append k 18 '\n' lineB6]
  rw [show List.drop 18 lineB6 = " found\")".toList from by decide]
  rw [hrem]

theorem subAll_P5_blank (k : Nat) :
    subAll matchP5 (blankThen (k + 1) lineB5) =
      'x' :: '\n' :: (repl5 ++ " %s\", name))".toList) := by
  have hrem : ∀ (f : Nat) (b : Bool), subAllF matchP5 f b (" %s\", name))".toList) =
      " %s\", name))".toList := fun f b => subAllF_id f b _ (by cases b <;> decide)
  have h5 := matchP5_blank k
  rw [List.replicate_succ, List.cons_append] at h5
  unfold subAll blankThen
  rw [show ('x' :: '\n' :: (List.replicate (k + 1) '\n' ++ lineB5)).length
      = ((List.replicate (k + 1) '\n' ++ lineB5).length + 1) + 1 from by simp]
  rw [subAllF_cons_none _ (by rfl)]
  rw [subAllF_cons_none _ (by rfl)]
  rw [List.replicate_succ, List.cons_append]
  rw [show ('\n' :: (List.replicate k '\n' ++ lineB5)).length
      = (List.replicate k '\n' ++ lineB5).length + 1 from by simp]
  rw [show (('\n' : Char) == '\n') = true from rfl]
  rw [subAllF_cons_some _ h5]
  have hlen : (List.replicate k '\n' ++ lineB5).length = k + 40 := by
    simp [lineB5]
  rw [show ('\n' :: (List.replicate k '\n' ++ lineB5)).length - 12 - 1 = k + 28 from by
    rw [List.length_cons, hlen]; omega]
  rw [drop_replicate_append k 28 '\n' lineB5]
  rw [show List.drop 28 lineB5 = " %s\", name))".toList from by decide]
  rw [hrem]

/-! ### No-match identity of the full rewrite -/

theorem existsMatch_false_six {s : List Char} (h : anyRuleMatches s = false) :
    existsMatch matchP1 true s = false ∧ existsMatch matchP2 true s = false ∧
    existsMatch matchP3 true s = false ∧ existsMatch matchP4 true s = false ∧
    existsMatch matchP5 true s = false ∧ existsMatch matchP6 true s = false := by
  simp only [anyRuleMatches, Bool.or_eq_false_iff] at h
  exact ⟨h.1.1.1.1.1, h.1.1.1.1.2, h.1.1.1.2, h.1.1.2, h.1.2, h.2⟩

theorem fix_content_id_of_noMatch {s : List Char} (h : anyRuleMatches s = false) :
    fix_content s = s := by
  obtain ⟨h1, h2, h3, h4, h5, h6⟩ := existsMatch_false_six h
  unfold fix_content subAll
  rw [subAllF_id _ _ _ h1, subAllF_id _ _ _ h2, subAllF_id _ _ _ h3,
    subAllF_id _ _ _ h4, subAllF_id _ _ _ h5, subAllF_id _ _ _ h6]

/-! ### Claim theorems -/

/-- Claim C1, counterexample: on the input line at column 0
`print(string.format("Session deleted: %s", name))`, the output of the full
rewrite is NOT the claimed `    addon:Debug("Session deleted: %s", name))`:
rule 5's replacement does not re-emit the captured prefix word. -/
theorem claim1_counterexample :
    fix_content "print(string.format(\"Session deleted: %s\", name))".toList ≠
      "    addon:Debug(\"Session deleted: %s\", name))".toList := by decide

/-- Claim C1 as amended: rule 5 rewrites the head of a standalone formatted
print call up through the opening quote AND the matched prefix word; the
prefix word is consumed by the match and dropped (the replacement is the fixed
text `    addon:Debug("`), while everything after the prefix word is preserved
verbatim, so the output line is `    addon:Debug(" deleted: %s", name))`. -/
theorem claim1_amended :
    fix_content "print(string.format(\"Session deleted: %s\", name))".toList =
      "    addon:Debug(\" deleted: %s\", name))".toList := by decide

/-- Claim C2, counterexample: on `print("No sessions found")` the output of
the full rewrite is NOT the claimed `    addon:Info("No sessions found")`. -/
theorem claim2_counterexample :
    fix_content "print(\"No sessions found\")".toList ≠
      "    addon:Info(\"No sessions found\")".toList := by decide

/-- Claim C2 as amended: rule 6 rewrites the head of the standalone plain
print up through the opening quote AND the matched prefix words `No sessions`,
which are consumed and dropped (the replacement is the fixed text
`    addon:Info("`); the rest of the line is preserved verbatim, so the output
is `    addon:Info(" found")`. -/
theorem claim2_amended :
    fix_content "print(\"No sessions found\")".toList =
      "    addon:Info(\" found\")".toList := by decide

/-- Claim C3, counterexample: the full six-rule rewrite is not idempotent.
On `if addon.DEBUG then print(if addon.DEBUG then print(x) end end` the first
pass captures `if addon.DEBUG then print(x` as the argument list, and the
resulting text `addon:Debug(if addon.DEBUG then print(x) end` is rewritten
again by a second pass. -/
theorem claim3_counterexample :
    fix_content (fix_content
        "if addon.DEBUG then print(if addon.DEBUG then print(x) end end".toList) ≠
      fix_content
        "if addon.DEBUG then print(if addon.DEBUG then print(x) end end".toList := by
  decide

/-- Claim C3 as amended: the rewrite is idempotent for every input text whose
first-pass output matches none of the six patterns (which fails exactly when a
captured argument list re-creates pattern text, as in the counterexample). -/
theorem claim3_amended (t : List Char)
    (h : anyRuleMatches (fix_content t) = false) :
    fix_content (fix_content t) = fix_content t :=
  fix_content_id_of_noMatch h

/-- Witness for C3 at the concrete input
`if addon.DEBUG then print("simple message") end`. -/
theorem claim3_witness :
    fix_content (fix_content
        "if addon.DEBUG then print(\"simple message\") end".toList) =
      fix_content "if addon.DEBUG then print(\"simple message\") end".toList :=
  claim3_amended _ (by decide)

/-- Claim C4, counterexample: on the claim's own example of a guard whose
argument list contains a nested parenthesized call,
`if addon.DEBUG then print(foo(x)) end`, the rewrite produces NO truncated
replacement at all: the text is left unchanged and no `addon:Debug(` call
occurs in the output (the pattern fails because the character after the first
closing parenthesis is another `)` rather than ` end`). -/
theorem claim4_counterexample :
    fix_content "if addon.DEBUG then print(foo(x)) end".toList =
      "if addon.DEBUG then print(foo(x)) end".toList ∧
    ¬ OccursIn "addon:Debug(".toList
        (fix_content "if addon.DEBUG then print(foo(x)) end".toList) :=
  ⟨by decide, not_occurs_of_hasSub (by decide)⟩

/-- Claim C4 as amended: a guard-form input with a nested parenthesized
expression in its argument list is rewritten only when the first closing
parenthesis happens to be followed by the literal guard tail; with balanced
nested parentheses (`if addon.DEBUG then print(foo(x)) end`) no pattern
matches and the input is unchanged, while on an input where ` end` follows the
first `)` the capture is truncated at that parenthesis
(`if addon.DEBUG then print(foo(x) end) end` becomes
`addon:Debug(foo(x)) end`). -/
theorem claim4_amended :
    fix_content "if addon.DEBUG then print(foo(x)) end".toList =
      "if addon.DEBUG then print(foo(x)) end".toList ∧
    fix_content "if addon.DEBUG then print(foo(x) end) end".toList =
      "addon:Debug(foo(x)) end".toList :=
  ⟨by decide, by decide⟩

/-- Claim C5: for every nonempty argument list without parentheses, the
single-line guards `if addon.DEBUG then print(string.format(<args>)) end` and
`if addon.DEBUG then print(<args>) end` are rewritten by the full rewrite to
`addon:Debug(<args>)` with `<args>` preserved verbatim. -/
theorem claim5_guard_verbatim (args : List Char) (h1 : args ≠ [])
    (h2 : ('(' : Char) ∉ args) (h3 : (')' : Char) ∉ args) :
    fix_content (guardFmt ++ args ++ ")) end".toList) = debugCall args ∧
    fix_content (guardPlain ++ args ++ ") end".toList) = debugCall args := by
  constructor
  · unfold fix_content
    rw [subAll_fire_all (by simp) (matchP1_full h1 h3 true),
      rule2_id_debugCall h2, rule3_id_debugCall h2, rule4_id_debugCall h2,
      rule5_id_debugCall h2, rule6_id_debugCall h2]
  · unfold fix_content
    rw [rule1_id_guardPlain h2,
      subAll_fire_all (by simp) (matchP2_full h1 h3 true),
      rule3_id_debugCall h2, rule4_id_debugCall h2,
      rule5_id_debugCall h2, rule6_id_debugCall h2]

/-- Witness for C5 at the spec's example inputs. -/
theorem claim5_witness :
    fix_content
        "if addon.DEBUG then print(string.format(\"Loading %s\", name)) end".toList =
      "addon:Debug(\"Loading %s\", name)".toList ∧
    fix_content "if addon.DEBUG then print(\"simple message\") end".toList =
      "addon:Debug(\"simple message\")".toList := by
  constructor
  · exact (claim5_guard_verbatim "\"Loading %s\", name".toList (by decide) (by decide)
      (by decide)).1
  · exact (claim5_guard_verbatim "\"simple message\"".toList (by decide) (by decide)
      (by decide)).2

/-- Claim C6: if none of the six patterns matches anywhere in the input, the
output buffer of the full rewrite is identical to the input buffer. -/
theorem claim6_noop {s : List Char} (h : anyRuleMatches s = false) :
    fix_content s = s :=
  fix_content_id_of_noMatch h

/-- Witness for C6 at the concrete non-matching input `local x = 5`. -/
theorem claim6_witness :
    anyRuleMatches "local x = 5".toList = false ∧
    fix_content "local x = 5".toList = "local x = 5".toList :=
  ⟨by decide, claim6_noop (by decide)⟩

/-- Claim C7: invoked with no path argument, the tool prints the usage line
and performs no file access: for every file system, nothing is read, nothing
is written, the file system is unchanged, and no error occurs. -/
theorem claim7_usage (fs : String → Option String) (prog : String) :
    mainRun fs [prog] = ⟨fs, [usageMsg], [], [], false⟩ := rfl

/-- Claim C8: if reading the supplied path fails (no content is readable at
that path), the error propagates: only a read is attempted, no rule output is
produced, nothing is written, the file system is unchanged, and no success
message is printed.  The same holds through the command-line entry point. -/
theorem claim8_read_error (fs : String → Option String) (prog filename : String)
    (h : fs filename = none) :
    fix_logging fs filename = ⟨fs, [], [filename], [], true⟩ ∧
    mainRun fs [prog, filename] = ⟨fs, [], [filename], [], true⟩ := by
  have h1 : fix_logging fs filename = ⟨fs, [], [filename], [], true⟩ := by
    unfold fix_logging
    rw [h]
  refine ⟨h1, ?_⟩
  unfold mainRun
  rw [if_pos (by simp only [List.length_cons, List.length_nil]; omega)]
  exact h1

/-- Witness for C8 with an empty file system and the path `missing.lua`. -/
theorem claim8_witness :
    fix_logging (fun _ => none) "missing.lua" =
      ⟨fun _ => none, [], ["missing.lua"], [], true⟩ ∧
    mainRun (fun _ => none) ["fix_logging.py", "missing.lua"] =
      ⟨fun _ => none, [], ["missing.lua"], [], true⟩ :=
  claim8_read_error (fun _ => none) "fix_logging.py" "missing.lua" rfl

/-- Claim C9: invoked with two or more command-line arguments, the tool runs
the rewrite on the first argument only, ignoring the extras: the run is
identical to a run on the first argument alone (so no usage message and no
error for the extras). -/
theorem claim9_extra_args (fs : String → Option String) (prog a b : String)
    (rest : List String) :
    mainRun fs (prog :: a :: b :: rest) = fix_logging fs a := by
  unfold mainRun
  rw [if_pos (by simp only [List.length_cons]; omega)]
  rfl

/-- Claim C10: a print line matched by rule 5 or rule 6 that is preceded by
one or more blank lines has those blank lines absorbed into the `^\s*` match
and deleted from the output, together with the line's own indentation: for
every `n ≥ 1`, the text `x\n` + n blank lines + print-line is rewritten to
`x\n` followed directly by the replacement. -/
theorem claim10_blank_lines (n : Nat) (h : 1 ≤ n) :
    fix_content (blankThen n lineB6) = "x\n    addon:Info(\" found\")".toList ∧
    fix_content (blankThen n lineB5) = "x\n    addon:Debug(\" %s\", name))".toList := by
  obtain ⟨k, rfl⟩ : ∃ k, n = k + 1 := ⟨n - 1, by omega⟩
  constructor
  · unfold fix_content
    rw [subAll_id_char (fun _ _ _ hh => matchP1_occ hh)
        (show ('D' : Char) ∈ guardFmt from by decide)
        (not_mem_blankThen _ (by decide) (by decide) (by decide)),
      subAll_id_char (fun _ _ _ hh => matchP2_occ hh)
        (show ('D' : Char) ∈ guardPlain from by decide)
        (not_mem_blankThen _ (by decide) (by decide) (by decide)),
      subAll_id_char (fun _ _ _ hh => (matchP3_occ hh).1)
        (show ('D' : Char) ∈ guardHead from by decide)
        (not_mem_blankThen _ (by decide) (by decide) (by decide)),
      subAll_id_char (fun _ _ _ hh => (matchP4_occ hh).1)
        (show ('D' : Char) ∈ guardHead from by decide)
        (not_mem_blankThen _ (by decide) (by decide) (by decide)),
      subAll_id_char (fun _ _ _ hh => matchP5_occ hh)
        (show ('.' : Char) ∈ fmtHead from by decide)
        (not_mem_blankThen _ (by decide) (by decide) (by decide)),
      subAll_P6_blank k]
    decide
  · unfold fix_content
    rw [subAll_id_char (fun _ _ _ hh => matchP1_occ hh)
        (show ('D' : Char) ∈ guardFmt from by decide)
        (not_mem_blankThen _ (by decide) (by decide) (by decide)),
      subAll_id_char (fun _ _ _ hh => matchP2_occ hh)
        (show ('D' : Char) ∈ guardPlain from by decide)
        (not_mem_blankThen _ (by decide) (by decide) (by decide)),
      subAll_id_char (fun _ _ _ hh => (matchP3_occ hh).1)
        (show ('D' : Char) ∈ guardHead from by decide)
        (not_mem_blankThen _ (by decide) (by decide) (by decide)),
      subAll_id_char (fun _ _ _ hh => (matchP4_occ hh).1)
        (show ('D' : Char) ∈ guardHead from by decide)
        (not_mem_blankThen _ (by decide) (by decide) (by decide)),
      subAll_P5_blank k]
    have h6 : subAll matchP6 ('x' :: '\n' :: (repl5 ++ " %s\", name))".toList)) =
        'x' :: '\n' :: (repl5 ++ " %s\", name))".toList) :=
      subAllF_id _ _ _ (by decide)
    rw [h6]
    decide

/-- Witness for C10 at two blank lines. -/
theorem claim10_witness :
    fix_content (blankThen 2 lineB6) = "x\n    addon:Info(\" found\")".toList ∧
    fix_content (blankThen 2 lineB5) = "x\n    addon:Debug(\" %s\", name))".toList :=
  claim10_blank_lines 2 (by decide)

end FixLogging
